import Mathlib

/-!
Shallow embedding of `src/services/spriteExtractor.js` (class `SpriteExtractor`),
the sprite-sheet segmentation core of the monster-forge repository.

Modelling conventions:
* An `ImageData` is modelled as its dimensions plus the flat RGBA byte array
  `data : Nat → Nat` (index `(y * width + x) * 4 + channel`, channel 3 = alpha),
  exactly the layout the JS code indexes into.
* JS float ratio comparisons (`transparentRatio > 0.05`, `edgeTransparentRatio > 0.5`)
  are modelled as exact cross-multiplied natural-number comparisons.
* `Math.max(0, a - b)` on naturals is truncated subtraction `a - b`.
* Canvas `drawImage`/`getImageData` round-trips are modelled as functional crops;
  source samples outside the image are transparent (all four bytes 0), matching
  canvas clipping semantics.
* Early-`return`/`break` loop shortcuts that do not change the computed value
  (`regionHasContent`'s count short-circuit, the grid loop's `break` once
  `maxSprites` is reached) are modelled by the equivalent total computation.
-/

/-- Decoded image: dimensions plus the flat RGBA byte array (`imageData.data`). -/
structure ImageData where
  width : Nat
  height : Nat
  data : Nat → Nat

/-- Axis-aligned rectangle `{x, y, width, height}` in source-image coordinates. -/
structure Region where
  x : Nat
  y : Nat
  width : Nat
  height : Nat
deriving DecidableEq, Repr

/-- Result record of `detectGrid`: `{cols, rows, cellSize}`. -/
structure GridInfo where
  cols : Nat
  rows : Nat
  cellSize : Nat
deriving DecidableEq, Repr

/-- Tagged classification returned by `detectSpriteType`
(`{type:'single'}`, `{type:'regions', regions, width, height}`,
`{type:'grid', cols, rows, cellSize}`). -/
inductive DetectionResult where
  | single
  | regions (regions : List Region) (width height : Nat)
  | grid (cols rows cellSize : Nat)
deriving DecidableEq, Repr

/-- The two fields of `analyzeImage`'s result that `detectSpriteType` reads. -/
structure Analysis where
  hasTransparency : Bool
  hasTransparentEdges : Bool
deriving DecidableEq, Repr

/-- Which extraction branch produced a tile (`type using 'single'`, `region`, or
`gridPosition` field on the pushed sprite object). -/
inductive TileOrigin where
  | single
  | region (r : Region)
  | grid (row col : Nat)
deriving DecidableEq, Repr

/-- One emitted sprite: pixel data, sequential index, and originating branch.
The `base64` field of the JS object is a PNG encoding of `imageData` and is not
modelled separately. -/
structure SpriteTile where
  imageData : ImageData
  index : Nat
  origin : TileOrigin

/-- Constructor options of `SpriteExtractor` with their defaults. -/
structure Config where
  cellSize : Nat
  minPixelThreshold : Nat
  maxSprites : Nat

/-- The default-constructed `SpriteExtractor` (cellSize 64, minPixelThreshold 500,
maxSprites 64). -/
def defaultConfig : Config := ⟨64, 500, 64⟩

/-- Count of the pixels of a `width × height` image satisfying `p`, structured
as the JS double loop (`y` outer, `x` inner): a per-row count summed over rows. -/
def countPixels (width height : Nat) (p : Nat → Nat → Bool) : Nat :=
  ((List.range height).map fun y => (List.range width).countP fun x => p x y).sum

/-- Edge-band test of `analyzeImage`:
`x < 5 || x >= width - 5 || y < 5 || y >= height - 5` (JS arithmetic, so
`x >= width - 5` is `width ≤ x + 5`). -/
def isEdgePixel (width height x y : Nat) : Bool :=
  decide (x < 5) || decide (width ≤ x + 5) || decide (y < 5) || decide (height ≤ y + 5)

/-- Embedding of `SpriteExtractor.analyzeImage`: counts alpha<128 pixels overall
and within the 5px edge band; `hasTransparency ↔ transparentRatio > 0.05` and
`hasTransparentEdges ↔ edgeTransparentRatio > 0.5` as exact rational comparisons
(the `totalEdgePixels > 0` guard makes a zero denominator yield `false`, which
the cross-multiplied form also does). -/
def analyzeImage (img : ImageData) : Analysis :=
  let w := img.width
  let h := img.height
  let transparentPixels :=
    countPixels w h fun x y => decide (img.data ((y * w + x) * 4 + 3) < 128)
  let totalEdgePixels :=
    countPixels w h fun x y => isEdgePixel w h x y
  let edgeTransparent :=
    countPixels w h fun x y =>
      isEdgePixel w h x y && decide (img.data ((y * w + x) * 4 + 3) < 128)
  { hasTransparency := decide (w * h < 20 * transparentPixels)
    hasTransparentEdges := decide (totalEdgePixels < 2 * edgeTransparent) }

/-- Scan direction of `findGaps`. -/
inductive GapDirection where
  | horizontal
  | vertical
deriving DecidableEq, Repr

/-- Emptiness test of one scan line in `findGaps`: every pixel of the row
(resp. column) has alpha ≤ 50 (JS: no pixel with `data[idx+3] > 50`). -/
def lineEmpty (data : Nat → Nat) (width height : Nat) : GapDirection → Nat → Bool
  | .horizontal, y => (List.range width).all fun x => decide (data ((y * width + x) * 4 + 3) ≤ 50)
  | .vertical, x => (List.range height).all fun y => decide (data ((y * width + x) * 4 + 3) ≤ 50)

/-- The `minGapSize` constant of `findGaps`. -/
def minGapSize : Nat := 8

/-- The scan loop of `findGaps`, over the per-line emptiness flags, carrying the
current position, `gapStart` (`-1` modelled as `none`), and the accumulated
`gaps` list.  A run is pushed as its midpoint `⌊(gapStart + y) / 2⌋` only when a
non-empty line with `y - gapStart ≥ minGapSize` closes it. -/
def gapsLoop : List Bool → Nat → Option Nat → List Nat → List Nat
  | [], _, _, acc => acc
  | e :: rest, y, gapStart, acc =>
    if e then gapsLoop rest (y + 1) (some (gapStart.getD y)) acc
    else
      match gapStart with
      | some s =>
          gapsLoop rest (y + 1) none (if minGapSize ≤ y - s then acc ++ [(s + y) / 2] else acc)
      | none => gapsLoop rest (y + 1) none acc

/-- Number of scan lines of `findGaps` in a given direction. -/
def lineCount (width height : Nat) : GapDirection → Nat
  | .horizontal => height
  | .vertical => width

/-- Embedding of `SpriteExtractor.findGaps`. -/
def findGaps (data : Nat → Nat) (width height : Nat) (dir : GapDirection) : List Nat :=
  gapsLoop ((List.range (lineCount width height dir)).map (lineEmpty data width height dir)) 0 none []

/-- Embedding of `SpriteExtractor.regionHasContent`: more than 100 pixels of the
region (`y` outer, `x` inner, per-row counts summed) have alpha > 50 (the JS
early `return true` at count 101 is an optimization of this count). -/
def regionHasContent (data : Nat → Nat) (imgWidth : Nat) (r : Region) : Bool :=
  decide (100 <
    ((List.range' r.y r.height).map fun y =>
      (List.range' r.x r.width).countP fun x => decide (50 < data ((y * imgWidth + x) * 4 + 3))).sum)

/-- The alpha>50 pixels scanned by `trimRegion` (loop bounds clipped at
`imgWidth`/`imgHeight` via `Math.min`), in scan order. -/
def trimPixels (data : Nat → Nat) (imgWidth imgHeight : Nat) (r : Region) : List (Nat × Nat) :=
  (List.range' r.y (min (r.y + r.height) imgHeight - r.y)).flatMap fun y =>
    (List.range' r.x (min (r.x + r.width) imgWidth - r.x)).filterMap fun x =>
      if 50 < data ((y * imgWidth + x) * 4 + 3) then some (x, y) else none

/-- Embedding of `SpriteExtractor.trimRegion`: fold min/max over the content
pixels from the initial values `minX = x+width`, `minY = y+height`, `maxX = x`,
`maxY = y`; `null` when no content was found (`maxX < minX || maxY < minY`);
otherwise the bounding box padded by 2 (natural subtraction is the JS
`Math.max(0, · - padding)` clamp). -/
def trimRegion (data : Nat → Nat) (imgWidth imgHeight : Nat) (r : Region) : Option Region :=
  let pts := trimPixels data imgWidth imgHeight r
  let minX := pts.foldl (fun m p => min m p.1) (r.x + r.width)
  let minY := pts.foldl (fun m p => min m p.2) (r.y + r.height)
  let maxX := pts.foldl (fun m p => max m p.1) r.x
  let maxY := pts.foldl (fun m p => max m p.2) r.y
  if maxX < minX ∨ maxY < minY then none
  else
    let padding := 2
    some { x := minX - padding
           y := minY - padding
           width := min (imgWidth - minX + padding) (maxX - minX + 1 + padding * 2)
           height := min (imgHeight - minY + padding) (maxY - minY + 1 + padding * 2) }

/-- Consecutive boundary pairs (`boundaries[i], boundaries[i+1]`). -/
def adjacentPairs (l : List Nat) : List (Nat × Nat) := l.zip l.tail

/-- Embedding of `SpriteExtractor.findSpriteRegions`: gap midpoints become cut
boundaries; every boundary cell (y-bands outer, x-bands inner) that passes
`regionHasContent` and whose trim succeeds with width and height both > 10 is
kept. -/
def findSpriteRegions (data : Nat → Nat) (width height : Nat) : List Region :=
  let horizontalGaps := findGaps data width height .horizontal
  let verticalGaps := findGaps data width height .vertical
  if horizontalGaps.length = 0 ∧ verticalGaps.length = 0 then []
  else
    let xB := 0 :: (verticalGaps ++ [width])
    let yB := 0 :: (horizontalGaps ++ [height])
    (adjacentPairs yB).flatMap fun yb =>
      (adjacentPairs xB).filterMap fun xb =>
        let region : Region := ⟨xb.1, yb.1, xb.2 - xb.1, yb.2 - yb.1⟩
        if regionHasContent data width region then
          match trimRegion data width height region with
          | some t => if 10 < t.width ∧ 10 < t.height then some t else none
          | none => none
        else none

/-- The candidate cell sizes tried by `detectGrid`, in order. -/
def possibleSizes : List Nat := [128, 96, 64, 48, 32, 16]

/-- The `for`-loop of `detectGrid` with its early `return`. -/
def detectGridLoop (width height : Nat) : List Nat → Option GridInfo
  | [] => none
  | size :: rest =>
    if width % size = 0 ∧ height % size = 0 then
      let cols := width / size
      let rows := height / size
      if 2 ≤ cols ∧ 1 ≤ rows ∧ 2 ≤ cols * rows ∧ cols * rows ≤ 64 then
        some ⟨cols, rows, size⟩
      else detectGridLoop width height rest
    else detectGridLoop width height rest

/-- Embedding of `SpriteExtractor.detectGrid`. -/
def detectGrid (width height : Nat) : Option GridInfo :=
  detectGridLoop width height possibleSizes

/-- Embedding of `SpriteExtractor.detectSpriteType`.  Cases 3 and 4 of the JS
cascade both return `{type:'single'}`, so every fall-through ends in `single`. -/
def detectSpriteType (img : ImageData) (analysis : Analysis) : DetectionResult :=
  if img.width < 200 ∧ img.height < 200 then .single
  else
    let viaTransparency : Option DetectionResult :=
      if analysis.hasTransparency && analysis.hasTransparentEdges then
        let regions := findSpriteRegions img.data img.width img.height
        if 0 < regions.length ∧ regions.length ≤ 20 then
          some (.regions regions img.width img.height)
        else
          match detectGrid img.width img.height with
          | some g => some (.grid g.cols g.rows g.cellSize)
          | none => none
      else none
    match viaTransparency with
    | some d => d
    | none => .single

/-- Canvas `drawImage(img, x0, y0, w, h, 0, 0, w, h)` followed by
`getImageData(0, 0, w, h)`: a `w × h` crop whose out-of-source samples are
transparent. -/
def cropRect (img : ImageData) (x0 y0 w h : Nat) : ImageData :=
  ⟨w, h, fun i =>
    let p := i / 4
    let x := p % w
    let y := p / w
    if y < h ∧ x0 + x < img.width ∧ y0 + y < img.height then
      img.data (((y0 + y) * img.width + (x0 + x)) * 4 + i % 4)
    else 0⟩

/-- The regions-branch canvas of `extractFromImage`: a square canvas of side
`max(region.width, region.height)` with the region drawn at offsets
`⌊(size - width) / 2⌋`, `⌊(size - height) / 2⌋`; everywhere else the fresh
canvas is transparent. -/
def cropCentered (img : ImageData) (r : Region) : ImageData :=
  let size := max r.width r.height
  let offsetX := (size - r.width) / 2
  let offsetY := (size - r.height) / 2
  ⟨size, size, fun i =>
    let p := i / 4
    let x := p % size
    let y := p / size
    if y < size ∧ offsetX ≤ x ∧ x < offsetX + r.width ∧ offsetY ≤ y ∧ y < offsetY + r.height
        ∧ r.x + (x - offsetX) < img.width ∧ r.y + (y - offsetY) < img.height then
      img.data (((r.y + (y - offsetY)) * img.width + (r.x + (x - offsetX))) * 4 + i % 4)
    else 0⟩

/-- Embedding of `SpriteExtractor.hasContent`: `visiblePixels` (alpha > 50) must
exceed `minPixelThreshold` and `coloredPixels` (visible and neither near-white
nor near-black on all channels) must exceed 50. -/
def hasContent (cfg : Config) (d : ImageData) : Bool :=
  let visiblePixels :=
    (List.range (d.width * d.height)).countP fun p => decide (50 < d.data (p * 4 + 3))
  let coloredPixels :=
    (List.range (d.width * d.height)).countP fun p =>
      decide (50 < d.data (p * 4 + 3)) &&
      !((decide (240 < d.data (p * 4)) && decide (240 < d.data (p * 4 + 1)) &&
          decide (240 < d.data (p * 4 + 2))) ||
        (decide (d.data (p * 4) < 15) && decide (d.data (p * 4 + 1) < 15) &&
          decide (d.data (p * 4 + 2) < 15)))
  decide (cfg.minPixelThreshold < visiblePixels) && decide (50 < coloredPixels)

/-- The `cellSize × cellSize` cell at grid position `(row, col)`. -/
def gridCellAt (img : ImageData) (cellSize row col : Nat) : ImageData :=
  cropRect img (col * cellSize) (row * cellSize) cellSize cellSize

/-- One iteration of the grid-extraction double loop: skip once `maxSprites`
tiles exist (the JS `break` re-fires on every later iteration, so it never adds
again), otherwise append the cell as a tile iff it passes `hasContent`; the
tile's `index` is `sprites.length` at push time. -/
def gridStep (cfg : Config) (img : ImageData) (cellSize : Nat)
    (sprites : List SpriteTile) (rc : Nat × Nat) : List SpriteTile :=
  if cfg.maxSprites ≤ sprites.length then sprites
  else
    let cell := gridCellAt img cellSize rc.1 rc.2
    if hasContent cfg cell then sprites ++ [⟨cell, sprites.length, .grid rc.1 rc.2⟩]
    else sprites

/-- Row-major cell positions (`row` outer, `col` inner) of the grid loop. -/
def rowMajorCells (rows cols : Nat) : List (Nat × Nat) :=
  (List.range rows).flatMap fun row => (List.range cols).map fun col => (row, col)

/-- Embedding of `SpriteExtractor.extractFromImage`: classify, then emit the
whole image (single), the centered region crops in order (regions), or the
content-filtered grid cells (grid). -/
def extractFromImage (cfg : Config) (img : ImageData) : List SpriteTile :=
  let analysis := analyzeImage img
  let detection := detectSpriteType img analysis
  match detection with
  | .single => [⟨cropRect img 0 0 img.width img.height, 0, .single⟩]
  | .regions rs _ _ => rs.enum.map fun p => ⟨cropCentered img p.2, p.1, .region p.2⟩
  | .grid cols rows cellSize => (rowMajorCells rows cols).foldl (gridStep cfg img cellSize) []

/-! ## Specification-side definitions

These definitions restate, in the spec's own words, the behaviour claimed for
the classifier (§4.2 priority chain), the grid detector (§4.4 first accepted
candidate), gap detection (§4.3 maximal empty runs), and grid extraction
(§4.5 row-major filter with cap).  They are compared against the source
embeddings above by the refinement theorems below. -/

/-- Spec §4.2: the classifier as an explicit first-match priority chain. -/
def classifySpec (img : ImageData) (a : Analysis) : DetectionResult :=
  let rs := findSpriteRegions img.data img.width img.height
  if img.width < 200 ∧ img.height < 200 then .single
  else if a.hasTransparency = true ∧ a.hasTransparentEdges = true ∧
      1 ≤ rs.length ∧ rs.length ≤ 20 then
    .regions rs img.width img.height
  else
    match detectGrid img.width img.height with
    | some g =>
        if a.hasTransparency = true ∧ a.hasTransparentEdges = true then
          .grid g.cols g.rows g.cellSize
        else .single
    | none => .single

/-- Spec §4.4: the per-size acceptance rule of the grid detector, exactly as
the claim states it: the size must divide both dimensions and the resulting
`cols × rows` must satisfy `cols ≥ 2`, `rows ≥ 1`, `2 ≤ cols*rows ≤ 64`. -/
def gridCandidate (width height size : Nat) : Option GridInfo :=
  if width % size = 0 ∧ height % size = 0 ∧ 2 ≤ width / size ∧ 1 ≤ height / size ∧
      2 ≤ width / size * (height / size) ∧ width / size * (height / size) ≤ 64 then
    some ⟨width / size, height / size, size⟩
  else none

/-- Spec §4.3: the maximal runs of `true` in a list of per-line emptiness flags,
as `(start, end-exclusive)` index pairs in scan order. -/
def emptyRuns : List Bool → Nat → List (Nat × Nat)
  | [], _ => []
  | false :: rest, i => emptyRuns rest (i + 1)
  | true :: rest, i =>
    let len := 1 + (rest.takeWhile fun b => b).length
    (i, i + len) :: emptyRuns (rest.dropWhile fun b => b) (i + len)
termination_by flags _ => flags.length
decreasing_by
  all_goals simp only [List.length_cons]
  all_goals first
    | exact Nat.lt_succ_self _
    | exact Nat.lt_succ_of_le (List.dropWhile_sublist _).length_le

/-- Spec §4.3 (amended): the recorded gaps are the midpoints `⌊(s+e)/2⌋` of the
maximal empty runs `[s, e)` of length at least `minGapSize` that end strictly
before the last scan line, i.e. are closed by a non-empty line. -/
def gapMidpoints (total : Nat) (flags : List Bool) : List Nat :=
  (emptyRuns flags 0).filterMap fun r =>
    if minGapSize ≤ r.2 - r.1 ∧ r.2 < total then some ((r.1 + r.2) / 2) else none

/-- Spec §4.5: grid extraction as filter-then-cap-then-enumerate over the
row-major cells. -/
def gridTilesSpec (cfg : Config) (img : ImageData) (cols rows cellSize : Nat) : List SpriteTile :=
  ((((rowMajorCells rows cols).filter fun rc =>
      hasContent cfg (gridCellAt img cellSize rc.1 rc.2)).take cfg.maxSprites).enum).map
    fun p => ⟨gridCellAt img cellSize p.2.1 p.2.2, p.1, .grid p.2.1 p.2.2⟩

/-! ## Concrete test images

Pixel buffers used to instantiate the theorems below on explicit inputs. -/

/-- A fully transparent 8×8 buffer. -/
def blank8 : ImageData := ⟨8, 8, fun _ => 0⟩

/-- A fully transparent 1024×1024 buffer. -/
def blank1024 : ImageData := ⟨1024, 1024, fun _ => 0⟩

/-- A fully opaque mid-gray 12×12 buffer. -/
def opaque12 : ImageData := ⟨12, 12, fun i => if i % 4 = 3 then 255 else 100⟩

/-- A 224×32 sheet whose leftmost 32×32 cell is opaque red (r=200, a=255) and
whose remaining area is fully transparent. -/
def gridSheet224 : ImageData :=
  ⟨224, 32, fun i =>
    if i / 4 % 224 < 32 then (if i % 4 = 3 then 255 else if i % 4 = 0 then 200 else 0) else 0⟩

/-- A 200×20 sheet with two opaque red 20×16 blobs (x 10–29 and x 100–119,
y 2–17) on a transparent background, separated by transparent column gaps. -/
def regionSheet200 : ImageData :=
  ⟨200, 20, fun i =>
    let p := i / 4
    let x := p % 200
    let y := p / 200
    if 2 ≤ y ∧ y ≤ 17 ∧ ((10 ≤ x ∧ x ≤ 29) ∨ (100 ≤ x ∧ x ≤ 119)) then
      (if i % 4 = 3 then 255 else if i % 4 = 0 then 200 else 0)
    else 0⟩

/-- A 200×20 sheet with a single opaque red 12×12 blob (x 10–21, y 2–13), small
enough (144 visible pixels) to fail `hasContent`'s 500-pixel floor while
passing `regionHasContent`'s 100-pixel floor. -/
def sparseSheet200 : ImageData :=
  ⟨200, 20, fun i =>
    let p := i / 4
    let x := p % 200
    let y := p / 200
    if 2 ≤ y ∧ y ≤ 13 ∧ 10 ≤ x ∧ x ≤ 21 then
      (if i % 4 = 3 then 255 else if i % 4 = 0 then 200 else 0)
    else 0⟩

/-! ## General lemmas about the embedded operations -/

/-- The grid-detector loop returns the first size whose candidate is accepted. -/
theorem detectGridLoop_eq_findSome (w h : Nat) :
    ∀ l : List Nat, detectGridLoop w h l = l.findSome? (gridCandidate w h) := by
  intro l
  induction l with
  | nil => rfl
  | cons s rest ih =>
    rw [List.findSome?_cons]
    unfold detectGridLoop
    by_cases h1 : w % s = 0 ∧ h % s = 0
    · by_cases h2 : 2 ≤ w / s ∧ 1 ≤ h / s ∧ 2 ≤ w / s * (h / s) ∧ w / s * (h / s) ≤ 64
      · rw [if_pos h1, if_pos h2,
          show gridCandidate w h s = some ⟨w / s, h / s, s⟩ from if_pos (by tauto)]
      · rw [if_pos h1, if_neg h2, ih,
          show gridCandidate w h s = none from if_neg (by tauto)]
    · rw [if_neg h1, ih, show gridCandidate w h s = none from if_neg (by tauto)]

/-- The cell size of a successful grid detection comes from the tried list. -/
theorem detectGridLoop_cellSize_mem (w h : Nat) :
    ∀ (l : List Nat) (g : GridInfo), detectGridLoop w h l = some g → g.cellSize ∈ l := by
  intro l
  induction l with
  | nil => intro g hg; exact absurd hg (by simp [detectGridLoop])
  | cons s rest ih =>
    intro g hg
    unfold detectGridLoop at hg
    by_cases h1 : w % s = 0 ∧ h % s = 0
    · rw [if_pos h1] at hg
      by_cases h2 : 2 ≤ w / s ∧ 1 ≤ h / s ∧ 2 ≤ w / s * (h / s) ∧ w / s * (h / s) ≤ 64
      · rw [if_pos h2] at hg
        obtain rfl : (⟨w / s, h / s, s⟩ : GridInfo) = g := Option.some.inj hg
        exact List.mem_cons_self _ _
      · rw [if_neg h2] at hg
        exact List.mem_cons_of_mem _ (ih g hg)
    · rw [if_neg h1] at hg
      exact List.mem_cons_of_mem _ (ih g hg)

/-- A `grid` classification can only arise from a successful `detectGrid`. -/
theorem detectSpriteType_grid_inv (img : ImageData) (a : Analysis) (c r s : Nat)
    (h : detectSpriteType img a = .grid c r s) :
    detectGrid img.width img.height = some ⟨c, r, s⟩ := by
  unfold detectSpriteType at h
  by_cases hsmall : img.width < 200 ∧ img.height < 200
  · rw [if_pos hsmall] at h
    exact absurd h (by simp)
  · rw [if_neg hsmall] at h
    by_cases hb : (a.hasTransparency && a.hasTransparentEdges) = true
    · rw [if_pos hb] at h
      by_cases hreg : 0 < (findSpriteRegions img.data img.width img.height).length ∧
          (findSpriteRegions img.data img.width img.height).length ≤ 20
      · rw [if_pos hreg] at h
        exact absurd h (by simp)
      · rw [if_neg hreg] at h
        cases hg : detectGrid img.width img.height with
        | none => rw [hg] at h; exact absurd h (by simp)
        | some g =>
          rw [hg] at h
          simp only [DetectionResult.grid.injEq] at h
          obtain ⟨h1, h2, h3⟩ := h
          cases g
          simp_all
    · rw [if_neg hb] at h
      exact absurd h (by simp)

/-- A `regions` classification carries exactly the region-finder output. -/
theorem detectSpriteType_regions_inv (img : ImageData) (a : Analysis) (rs : List Region)
    (W H : Nat) (h : detectSpriteType img a = .regions rs W H) :
    rs = findSpriteRegions img.data img.width img.height := by
  unfold detectSpriteType at h
  by_cases hsmall : img.width < 200 ∧ img.height < 200
  · rw [if_pos hsmall] at h
    exact absurd h (by simp)
  · rw [if_neg hsmall] at h
    by_cases hb : (a.hasTransparency && a.hasTransparentEdges) = true
    · rw [if_pos hb] at h
      by_cases hreg : 0 < (findSpriteRegions img.data img.width img.height).length ∧
          (findSpriteRegions img.data img.width img.height).length ≤ 20
      · rw [if_pos hreg] at h
        simp only [DetectionResult.regions.injEq] at h
        exact h.1.symm
      · rw [if_neg hreg] at h
        cases hg : detectGrid img.width img.height with
        | none => rw [hg] at h; exact absurd h (by simp)
        | some g => rw [hg] at h; exact absurd h (by simp)
    · rw [if_neg hb] at h
      exact absurd h (by simp)

/-- Every region emitted by the region finder has width and height above 10. -/
theorem findSpriteRegions_dims (data : Nat → Nat) (w h : Nat) (r : Region)
    (hmem : r ∈ findSpriteRegions data w h) : 10 < r.width ∧ 10 < r.height := by
  unfold findSpriteRegions at hmem
  by_cases hempty : (findGaps data w h .horizontal).length = 0 ∧
      (findGaps data w h .vertical).length = 0
  · rw [if_pos hempty] at hmem
    exact absurd hmem (by simp)
  · rw [if_neg hempty] at hmem
    simp only [List.mem_flatMap, List.mem_filterMap] at hmem
    obtain ⟨yb, _, xb, _, heq⟩ := hmem
    by_cases hc : regionHasContent data w ⟨xb.1, yb.1, xb.2 - xb.1, yb.2 - yb.1⟩
    · rw [if_pos hc] at heq
      cases htr : trimRegion data w h ⟨xb.1, yb.1, xb.2 - xb.1, yb.2 - yb.1⟩ with
      | none => rw [htr] at heq; exact absurd heq (by simp)
      | some t =>
        rw [htr] at heq
        have heq2 : (if 10 < t.width ∧ 10 < t.height then some t else none) = some r := heq
        by_cases hdim : 10 < t.width ∧ 10 < t.height
        · rw [if_pos hdim] at heq2
          obtain rfl : t = r := Option.some.inj heq2
          exact hdim
        · rw [if_neg hdim] at heq2
          exact absurd heq2 (by simp)
    · rw [if_neg hc] at heq
      exact absurd heq (by simp)

/-- The grid-extraction fold is filter-then-cap-then-enumerate: starting from
any accumulator not already over the cap, it appends the first
`maxSprites - acc.length` content-passing cells, indexed sequentially from
`acc.length`. -/
theorem gridFold_eq (cfg : Config) (img : ImageData) (cellSize : Nat) :
    ∀ (cells : List (Nat × Nat)) (acc : List SpriteTile), acc.length ≤ cfg.maxSprites →
      cells.foldl (gridStep cfg img cellSize) acc =
        acc ++ (((cells.filter fun rc => hasContent cfg (gridCellAt img cellSize rc.1 rc.2)).take
            (cfg.maxSprites - acc.length)).enumFrom acc.length).map
          fun p => ⟨gridCellAt img cellSize p.2.1 p.2.2, p.1, .grid p.2.1 p.2.2⟩ := by
  intro cells
  induction cells with
  | nil => intro acc _; simp
  | cons rc rest ih =>
    intro acc hle
    rw [List.foldl_cons]
    by_cases hfull : cfg.maxSprites ≤ acc.length
    · have hlen : acc.length = cfg.maxSprites := Nat.le_antisymm hle hfull
      have hstep : gridStep cfg img cellSize acc rc = acc := by
        unfold gridStep; rw [if_pos hfull]
      rw [hstep, ih acc hle, hlen, Nat.sub_self]
      simp
    · have hlt : acc.length < cfg.maxSprites := Nat.lt_of_not_le hfull
      by_cases hc : hasContent cfg (gridCellAt img cellSize rc.1 rc.2)
      · have hstep : gridStep cfg img cellSize acc rc =
            acc ++ [⟨gridCellAt img cellSize rc.1 rc.2, acc.length, .grid rc.1 rc.2⟩] := by
          unfold gridStep; rw [if_neg hfull, if_pos hc]
        rw [hstep, ih _ (by simpa using hlt)]
        rw [List.filter_cons, if_pos hc,
          show cfg.maxSprites - acc.length = (cfg.maxSprites - (acc.length + 1)) + 1 by omega,
          List.take_succ_cons, List.enumFrom_cons, List.map_cons, List.append_assoc]
        simp
      · have hstep : gridStep cfg img cellSize acc rc = acc := by
          unfold gridStep; rw [if_neg hfull, if_neg hc]
        rw [hstep, ih acc hle, List.filter_cons, if_neg hc]

theorem gapsLoop_spec (flags : List Bool) :
    (∀ i acc, gapsLoop flags i none acc =
      acc ++ (emptyRuns flags i).filterMap fun r =>
        if minGapSize ≤ r.2 - r.1 ∧ r.2 < i + flags.length then some ((r.1 + r.2) / 2) else none) ∧
    (∀ i s acc, gapsLoop flags i (some s) acc =
      acc ++ ((s, i + (flags.takeWhile fun b => b).length) ::
          emptyRuns (flags.dropWhile fun b => b) (i + (flags.takeWhile fun b => b).length)).filterMap
        fun r => if minGapSize ≤ r.2 - r.1 ∧ r.2 < i + flags.length then some ((r.1 + r.2) / 2) else none) := by
  induction flags with
  | nil =>
    constructor
    · intro i acc
      simp [gapsLoop, emptyRuns]
    · intro i s acc
      simp [gapsLoop, emptyRuns]
  | cons b rest ih =>
    cases b with
    | true =>
      constructor
      · intro i acc
        have hstep : gapsLoop (true :: rest) i none acc = gapsLoop rest (i + 1) (some i) acc := rfl
        rw [hstep, ih.2]
        simp only [emptyRuns, List.length_cons]
        rw [show i + 1 + (List.takeWhile (fun b => b) rest).length =
              i + (1 + (List.takeWhile (fun b => b) rest).length) by omega,
            show i + 1 + rest.length = i + (rest.length + 1) by omega]
      · intro i s acc
        have hstep : gapsLoop (true :: rest) i (some s) acc = gapsLoop rest (i + 1) (some s) acc := rfl
        rw [hstep, ih.2,
          show List.takeWhile (fun b => b) (true :: rest) = true :: List.takeWhile (fun b => b) rest
            from rfl,
          show List.dropWhile (fun b => b) (true :: rest) = List.dropWhile (fun b => b) rest
            from rfl]
        simp only [List.length_cons]
        rw [show i + 1 + (List.takeWhile (fun b => b) rest).length =
              i + ((List.takeWhile (fun b => b) rest).length + 1) by omega,
            show i + 1 + rest.length = i + (rest.length + 1) by omega]
    | false =>
      constructor
      · intro i acc
        have hstep : gapsLoop (false :: rest) i none acc = gapsLoop rest (i + 1) none acc := rfl
        rw [hstep, ih.1]
        simp only [emptyRuns, List.length_cons]
        rw [show i + 1 + rest.length = i + (rest.length + 1) by omega]
      · intro i s acc
        have hstep : gapsLoop (false :: rest) i (some s) acc =
            gapsLoop rest (i + 1) none (if minGapSize ≤ i - s then acc ++ [(s + i) / 2] else acc) := rfl
        rw [hstep, ih.1,
          show List.takeWhile (fun b => b) (false :: rest) = [] from rfl,
          show List.dropWhile (fun b => b) (false :: rest) = false :: rest from rfl]
        simp only [List.length_cons, List.length_nil, Nat.add_zero, List.filterMap_cons, emptyRuns]
        have hlt : i < i + (rest.length + 1) := by omega
        simp only [hlt, and_true]
        rw [show i + 1 + rest.length = i + (rest.length + 1) by omega]
        by_cases hcond : minGapSize ≤ i - s
        · simp [hcond, List.append_assoc]
        · simp [hcond]

/-- C5 (amended): `findGaps` records exactly one gap per maximal run of empty
lines of length at least `minGapSize` (8) that is closed by a non-empty line,
recorded as the run's midpoint; a maximal run that extends to the last scan
line is never recorded. -/
theorem findGaps_eq_gapMidpoints (data : Nat → Nat) (width height : Nat) (dir : GapDirection) :
    findGaps data width height dir =
      gapMidpoints (lineCount width height dir)
        ((List.range (lineCount width height dir)).map (lineEmpty data width height dir)) := by
  unfold findGaps gapMidpoints
  rw [(gapsLoop_spec _).1 0 []]
  simp

theorem countPixels_of_all (width height : Nat) (p : Nat → Nat → Bool)
    (hp : ∀ x y, p x y = true) : countPixels width height p = height * width := by
  unfold countPixels
  have h1 : ∀ y ∈ List.range height, ((List.range width).countP fun x => p x y) = width := by
    intro y _
    calc ((List.range width).countP fun x => p x y) = (List.range width).length :=
          List.countP_eq_length.mpr fun a _ => hp a y
      _ = width := List.length_range width
  rw [List.map_congr_left h1, List.map_const', List.length_range, List.sum_const_nat]

theorem countPixels_pos (width height : Nat) (p : Nat → Nat → Bool)
    (hw : 0 < width) (hh : 0 < height) (hp : p 0 0 = true) : 0 < countPixels width height p := by
  unfold countPixels
  have hpos : 0 < (List.range width).countP fun x => p x 0 :=
    List.countP_pos_iff.mpr ⟨0, List.mem_range.mpr hw, hp⟩
  have hmem : ((List.range width).countP fun x => p x 0) ∈
      (List.range height).map fun y => (List.range width).countP fun x => p x y :=
    List.mem_map_of_mem _ (List.mem_range.mpr hh)
  exact Nat.lt_of_lt_of_le hpos (List.le_sum_of_mem hmem)

theorem lineEmpty_zero (width height : Nat) (dir : GapDirection) (n : Nat) :
    lineEmpty (fun _ => 0) width height dir n = true := by
  cases dir <;> simp [lineEmpty]

theorem gapsLoop_all_empty (flags : List Bool) (hf : ∀ b ∈ flags, b = true) :
    ∀ (i : Nat) (st : Option Nat) (acc : List Nat), gapsLoop flags i st acc = acc := by
  induction flags with
  | nil => intro i st acc; rfl
  | cons b rest ih =>
    intro i st acc
    have hb : b = true := hf b (List.mem_cons_self _ _)
    subst hb
    have hstep : gapsLoop (true :: rest) i st acc =
        gapsLoop rest (i + 1) (some (st.getD i)) acc := rfl
    rw [hstep]
    exact ih (fun b hb => hf b (List.mem_cons_of_mem _ hb)) _ _ _

theorem findGaps_zero (width height : Nat) (dir : GapDirection) :
    findGaps (fun _ => 0) width height dir = [] := by
  unfold findGaps
  apply gapsLoop_all_empty
  intro b hb
  simp only [List.mem_map] at hb
  obtain ⟨n, _, hn⟩ := hb
  rw [← hn, lineEmpty_zero]

theorem findSpriteRegions_zero (width height : Nat) :
    findSpriteRegions (fun _ => 0) width height = [] := by
  unfold findSpriteRegions
  rw [findGaps_zero, findGaps_zero]
  simp

theorem analyzeImage_blank (w h : Nat) (hw : 0 < w) (hh : 0 < h) :
    analyzeImage ⟨w, h, fun _ => 0⟩ = ⟨true, true⟩ := by
  show (⟨decide (w * h < 20 * countPixels w h fun _ _ => true),
      decide (countPixels w h (fun x y => isEdgePixel w h x y) <
        2 * countPixels w h fun x y => isEdgePixel w h x y && true)⟩ : Analysis) = ⟨true, true⟩
  simp only [Bool.and_true]
  rw [countPixels_of_all w h _ (fun _ _ => rfl)]
  have h0 : 0 < h * w := Nat.mul_pos hh hw
  have hE : 0 < countPixels w h (fun x y => isEdgePixel w h x y) := by
    apply countPixels_pos _ _ _ hw hh
    simp [isEdgePixel]
  simp only [Analysis.mk.injEq]
  constructor
  · exact decide_eq_true (by
      calc w * h = 1 * (h * w) := by rw [Nat.one_mul, Nat.mul_comm]
        _ < 20 * (h * w) := by
            exact Nat.mul_lt_mul_of_lt_of_le (by norm_num) (Nat.le_refl _) h0
        )
  · exact decide_eq_true (by omega)

theorem detectSpriteType_blank1024 :
    detectSpriteType blank1024 (analyzeImage blank1024) = .grid 8 8 128 := by
  have ha : analyzeImage blank1024 = ⟨true, true⟩ :=
    analyzeImage_blank 1024 1024 (by norm_num) (by norm_num)
  rw [ha]
  unfold detectSpriteType
  rw [if_neg (by decide : ¬(blank1024.width < 200 ∧ blank1024.height < 200))]
  have hr : findSpriteRegions blank1024.data blank1024.width blank1024.height = [] :=
    findSpriteRegions_zero 1024 1024
  rw [hr]
  have hg : detectGrid blank1024.width blank1024.height = some ⟨8, 8, 128⟩ := by decide
  rw [hg]
  simp

/-- C6: the classifier is exactly the spec's first-match priority chain: small
images are `Single` regardless of transparency; otherwise under transparency
with transparent edges, 1–20 regions give `Regions`, else a successful grid
detection gives `Grid`; every remaining case is `Single`. -/
theorem detectSpriteType_eq_classifySpec (img : ImageData) (a : Analysis) :
    detectSpriteType img a = classifySpec img a := by
  simp only [detectSpriteType, classifySpec]
  by_cases hsmall : img.width < 200 ∧ img.height < 200
  · rw [if_pos hsmall, if_pos hsmall]
  · rw [if_neg hsmall, if_neg hsmall]
    by_cases hb : a.hasTransparency = true ∧ a.hasTransparentEdges = true
    · obtain ⟨hbt, hbe⟩ := hb
      rw [hbt, hbe, if_pos (show (true && true) = true from rfl)]
      by_cases hreg : 0 < (findSpriteRegions img.data img.width img.height).length ∧
          (findSpriteRegions img.data img.width img.height).length ≤ 20
      · rw [if_pos hreg, if_pos ⟨rfl, rfl, hreg.1, hreg.2⟩]
      · rw [if_neg hreg, if_neg (fun hcon => hreg ⟨hcon.2.2.1, hcon.2.2.2⟩)]
        cases hg : detectGrid img.width img.height with
        | none => rfl
        | some g => simp
    · have hbfalse : ¬((a.hasTransparency && a.hasTransparentEdges) = true) := by
        intro hcon
        rw [Bool.and_eq_true] at hcon
        exact hb hcon
      rw [if_neg hbfalse, if_neg (fun hcon => hb ⟨hcon.1, hcon.2.1⟩)]
      cases hg : detectGrid img.width img.height with
      | none => rfl
      | some g => simp [hb]

theorem flat_decode (n x y c : Nat) (hx : x < n) (hc : c < 4) :
    (((y * n + x) * 4 + c) / 4) % n = x ∧ (((y * n + x) * 4 + c) / 4) / n = y ∧
      ((y * n + x) * 4 + c) % 4 = c := by
  have h4 : ((y * n + x) * 4 + c) / 4 = y * n + x := by omega
  have h4m : ((y * n + x) * 4 + c) % 4 = c := by omega
  refine ⟨?_, ?_, h4m⟩
  · rw [h4, Nat.add_comm, Nat.add_mul_mod_self_right, Nat.mod_eq_of_lt hx]
  · rw [h4, Nat.add_comm, Nat.add_mul_div_right _ _ (by omega : 0 < n),
      Nat.div_eq_of_lt hx, Nat.zero_add]

theorem cropCentered_outside (img : ImageData) (r : Region) (x y c : Nat)
    (hx : x < max r.width r.height) (_hy : y < max r.width r.height) (hc : c < 4)
    (hout : ¬((max r.width r.height - r.width) / 2 ≤ x ∧
        x < (max r.width r.height - r.width) / 2 + r.width ∧
        (max r.width r.height - r.height) / 2 ≤ y ∧
        y < (max r.width r.height - r.height) / 2 + r.height)) :
    (cropCentered img r).data ((y * max r.width r.height + x) * 4 + c) = 0 := by
  obtain ⟨hm, hd, hmc⟩ := flat_decode (max r.width r.height) x y c hx hc
  simp only [cropCentered, hm, hd, hmc]
  rw [if_neg]
  intro hcond
  exact hout ⟨hcond.2.1, hcond.2.2.1, hcond.2.2.2.1, hcond.2.2.2.2.1⟩

theorem cropCentered_inside (img : ImageData) (r : Region) (dx dy c : Nat)
    (hdx : dx < r.width) (hdy : dy < r.height) (hc : c < 4)
    (hsx : r.x + dx < img.width) (hsy : r.y + dy < img.height) :
    (cropCentered img r).data
        ((((max r.width r.height - r.height) / 2 + dy) * max r.width r.height +
          ((max r.width r.height - r.width) / 2 + dx)) * 4 + c) =
      img.data (((r.y + dy) * img.width + (r.x + dx)) * 4 + c) := by
  have hwle : r.width ≤ max r.width r.height := Nat.le_max_left _ _
  have hhle : r.height ≤ max r.width r.height := Nat.le_max_right _ _
  have hox : (max r.width r.height - r.width) / 2 ≤ max r.width r.height - r.width :=
    Nat.div_le_self _ _
  have hoy : (max r.width r.height - r.height) / 2 ≤ max r.width r.height - r.height :=
    Nat.div_le_self _ _
  have hx : (max r.width r.height - r.width) / 2 + dx < max r.width r.height := by omega
  have hy : (max r.width r.height - r.height) / 2 + dy < max r.width r.height := by omega
  obtain ⟨hm, hd, hmc⟩ :=
    flat_decode (max r.width r.height) ((max r.width r.height - r.width) / 2 + dx)
      ((max r.width r.height - r.height) / 2 + dy) c hx hc
  simp only [cropCentered, hm, hd, hmc]
  rw [if_pos]
  · rw [Nat.add_sub_cancel_left, Nat.add_sub_cancel_left]
  · refine ⟨hy, Nat.le_add_right _ _, by omega, Nat.le_add_right _ _, by omega, ?_, ?_⟩
    · rw [Nat.add_sub_cancel_left]; exact hsx
    · rw [Nat.add_sub_cancel_left]; exact hsy

/-! ## Concrete evaluations -/

set_option maxRecDepth 200000

/-- The 224×32 sheet classifies as a 7×1 grid of 32px cells: it is not small,
it has transparency and transparent edges, the gap scan finds no closed gaps
(the only transparent column run reaches the right edge), and 32 divides both
dimensions. -/
theorem detect224_eq :
    detectSpriteType gridSheet224 (analyzeImage gridSheet224) = .grid 7 1 32 := by decide

/-- Grid extraction of the 224×32 sheet keeps exactly the one cell with
content, as tile index 0. -/
theorem extract224_eq : extractFromImage defaultConfig gridSheet224 =
    [⟨gridCellAt gridSheet224 32 0 0, 0, .grid 0 0⟩] := rfl

/-- The two-blob 200×20 sheet classifies as two regions. -/
theorem detect200_eq : detectSpriteType regionSheet200 (analyzeImage regionSheet200) =
    .regions [⟨8, 0, 24, 20⟩, ⟨98, 0, 24, 20⟩] 200 20 := by decide

/-! ## Claim theorems -/

/-- C1 (counterexample): the claim says a 1024×1024 image must not produce a
`Grid` detection; but the fully transparent 1024×1024 buffer classifies as
`Grid(8, 8, 128)`, because `detectGrid` accepts the 128px candidate (8×8 = 64
cells, exactly at the ceiling) before ever trying 64px cells. -/
theorem detect1024_produces_grid :
    detectSpriteType blank1024 (analyzeImage blank1024) = .grid 8 8 128 :=
  detectSpriteType_blank1024

/-- C1 (amended): for 1024×1024, the 64px candidate's 16×16 = 256-cell grid
would indeed exceed the 64-cell ceiling, but `detectGrid` first accepts the
128px candidate with 8×8 = 64 cells, so the classifier can return `Grid`
(e.g. on the fully transparent 1024×1024 buffer) instead of falling through. -/
theorem detectGrid_1024_accepts_128 :
    detectGrid 1024 1024 = some ⟨8, 8, 128⟩ ∧ ¬(1024 / 64 * (1024 / 64) ≤ 64) ∧
      detectSpriteType blank1024 (analyzeImage blank1024) = .grid 8 8 128 :=
  ⟨by decide, by decide, detectSpriteType_blank1024⟩

/-- C2 (counterexample): the claim says every emitted tile has width and height
above 10, but a fully transparent 8×8 image classifies as `Single` and is
emitted as one 8×8 tile with no size check. -/
theorem blank8_tile_small :
    ((extractFromImage defaultConfig blank8).all fun t =>
      decide (10 < t.imageData.width) && decide (10 < t.imageData.height)) = false := by decide

/-- C2 (amended): every tile emitted by the regions or grid branch has width
and height strictly above 10; only the single branch can emit a smaller tile
(the whole image at its own size). -/
theorem nonsingle_tile_dims (cfg : Config) (img : ImageData) (t : SpriteTile)
    (hmem : t ∈ extractFromImage cfg img) (ho : t.origin ≠ .single) :
    10 < t.imageData.width ∧ 10 < t.imageData.height := by
  simp only [extractFromImage] at hmem
  cases hdet : detectSpriteType img (analyzeImage img) with
  | single =>
    rw [hdet] at hmem
    simp only [List.mem_singleton] at hmem
    rw [hmem] at ho
    exact absurd rfl ho
  | regions rs W H =>
    rw [hdet] at hmem
    simp only [List.mem_map] at hmem
    obtain ⟨p, hp, ht⟩ := hmem
    have hrs : p.2 ∈ rs := List.snd_mem_of_mem_enum hp
    rw [detectSpriteType_regions_inv img (analyzeImage img) rs W H hdet] at hrs
    obtain ⟨h1, h2⟩ := findSpriteRegions_dims _ _ _ _ hrs
    rw [← ht]
    exact ⟨Nat.lt_of_lt_of_le h1 (Nat.le_max_left _ _),
      Nat.lt_of_lt_of_le h2 (Nat.le_max_right _ _)⟩
  | grid c r s =>
    rw [hdet] at hmem
    have hmem2 : t ∈ List.foldl (gridStep cfg img s) [] (rowMajorCells r c) := hmem
    rw [gridFold_eq cfg img s (rowMajorCells r c) [] (Nat.zero_le _)] at hmem2
    simp only [List.nil_append, List.mem_map] at hmem2
    obtain ⟨p, hp, ht⟩ := hmem2
    have hg := detectSpriteType_grid_inv img (analyzeImage img) c r s hdet
    have hsmem : s ∈ possibleSizes :=
      detectGridLoop_cellSize_mem img.width img.height possibleSizes ⟨c, r, s⟩ hg
    have h10 : 10 < s := by
      have hcases : s = 128 ∨ s = 96 ∨ s = 64 ∨ s = 48 ∨ s = 32 ∨ s = 16 := by
        simpa [possibleSizes] using hsmem
      rcases hcases with rfl | rfl | rfl | rfl | rfl | rfl <;> omega
    rw [← ht]
    exact ⟨h10, h10⟩

/-- C2 (witness): the grid tile of the 224×32 sheet instantiates the amended
theorem: it is a non-single tile and its dimensions are 32×32. -/
theorem nonsingle_tile_dims_witness :
    (⟨gridCellAt gridSheet224 32 0 0, 0, .grid 0 0⟩ : SpriteTile) ∈
        extractFromImage defaultConfig gridSheet224 ∧
      (TileOrigin.grid 0 0 ≠ TileOrigin.single) ∧
      10 < (gridCellAt gridSheet224 32 0 0).width ∧
      10 < (gridCellAt gridSheet224 32 0 0).height := by
  have hmem : (⟨gridCellAt gridSheet224 32 0 0, 0, .grid 0 0⟩ : SpriteTile) ∈
      extractFromImage defaultConfig gridSheet224 := by
    rw [extract224_eq]
    exact List.mem_singleton_self _
  have hres := nonsingle_tile_dims defaultConfig gridSheet224 _ hmem (by simp)
  exact ⟨hmem, by simp, hres.1, hres.2⟩

/-- C3 (counterexample): the claim says every emitted tile passes the Content
Test on its own pixels, but (a) a fully transparent 8×8 image is emitted as a
single tile with zero visible pixels, and (b) a 200×20 sheet with one sparse
12×12 blob (144 visible pixels) is emitted as a region tile that fails the
500-visible-pixel floor — regions are only filtered by the weaker 100-pixel
`regionHasContent` test. -/
theorem tiles_fail_content_test :
    ((extractFromImage defaultConfig blank8).all fun t =>
      hasContent defaultConfig t.imageData) = false ∧
    ((extractFromImage defaultConfig sparseSheet200).all fun t =>
      hasContent defaultConfig t.imageData) = false := by
  constructor
  · decide
  · decide

/-- C3 (amended): only grid-branch tiles are guaranteed to pass the Content
Test on their own pixel data; single tiles are never tested and region tiles
only pass the weaker visible-pixel floor of `regionHasContent`. -/
theorem grid_tile_hasContent (cfg : Config) (img : ImageData) (t : SpriteTile)
    (row col : Nat) (hmem : t ∈ extractFromImage cfg img)
    (ho : t.origin = .grid row col) : hasContent cfg t.imageData = true := by
  simp only [extractFromImage] at hmem
  cases hdet : detectSpriteType img (analyzeImage img) with
  | single =>
    rw [hdet] at hmem
    simp only [List.mem_singleton] at hmem
    rw [hmem] at ho
    exact absurd ho (by simp)
  | regions rs W H =>
    rw [hdet] at hmem
    simp only [List.mem_map] at hmem
    obtain ⟨p, _, ht⟩ := hmem
    rw [← ht] at ho
    exact absurd ho (by simp)
  | grid c r s =>
    rw [hdet] at hmem
    have hmem2 : t ∈ List.foldl (gridStep cfg img s) [] (rowMajorCells r c) := hmem
    rw [gridFold_eq cfg img s (rowMajorCells r c) [] (Nat.zero_le _)] at hmem2
    simp only [List.nil_append, List.mem_map] at hmem2
    obtain ⟨p, hp, ht⟩ := hmem2
    have hfil : p.2 ∈ (rowMajorCells r c).filter fun rc =>
        hasContent cfg (gridCellAt img s rc.1 rc.2) := by
      have htake := List.snd_mem_of_mem_enumFrom hp
      exact List.mem_of_mem_take htake
    have hcontent := (List.mem_filter.mp hfil).2
    rw [← ht]
    exact hcontent

/-- C3 (witness): the grid tile of the 224×32 sheet instantiates the amended
theorem and passes the Content Test. -/
theorem grid_tile_hasContent_witness :
    (⟨gridCellAt gridSheet224 32 0 0, 0, .grid 0 0⟩ : SpriteTile) ∈
        extractFromImage defaultConfig gridSheet224 ∧
      hasContent defaultConfig
        (SpriteTile.imageData ⟨gridCellAt gridSheet224 32 0 0, 0, .grid 0 0⟩) = true := by
  have hmem : (⟨gridCellAt gridSheet224 32 0 0, 0, .grid 0 0⟩ : SpriteTile) ∈
      extractFromImage defaultConfig gridSheet224 := by
    rw [extract224_eq]
    exact List.mem_singleton_self _
  refine ⟨hmem, ?_⟩
  exact grid_tile_hasContent defaultConfig gridSheet224
    ⟨gridCellAt gridSheet224 32 0 0, 0, .grid 0 0⟩ 0 0 hmem rfl

/-- C4 (code bug): `trimRegion` on a fully opaque 12×12 image with the whole
image as candidate region returns `{x:0, y:0, width:14, height:14}`, which
exceeds the image on both axes (`x + width = 14 > 12`): when the content
touches the left/top edge, `Math.max(0, min-2)` clamps the origin but the
size cap `imgWidth - minX + padding` still measures from the unclamped
`minX`. -/
theorem trimRegion_exceeds_bounds :
    trimRegion opaque12.data 12 12 ⟨0, 0, 12, 12⟩ = some ⟨0, 0, 14, 14⟩ ∧
      ¬(0 + 14 ≤ 12 ∧ 0 + 14 ≤ 12) := by
  constructor
  · decide
  · decide

/-- C5 (counterexample): on a 1×8 fully transparent buffer all 8 rows are
empty, so there is a maximal empty run of length 8 (≥ the minimum), yet
`findGaps` records nothing because the run reaches the last row and is never
closed by a non-empty row. -/
theorem trailing_run_not_recorded :
    ((List.range 8).all fun y => lineEmpty (fun _ => 0) 1 8 .horizontal y) = true ∧
      findGaps (fun _ => 0) 1 8 .horizontal = [] := by
  constructor
  · decide
  · decide

/-- C7: `detectGrid` returns the first size of the descending candidate list
whose candidate divides both dimensions and is accepted by
`cols ≥ 2 ∧ rows ≥ 1 ∧ 2 ≤ cols*rows ≤ 64`, or `none` when no size is. -/
theorem detectGrid_first_accepted (w h : Nat) :
    detectGrid w h = possibleSizes.findSome? (gridCandidate w h) :=
  detectGridLoop_eq_findSome w h possibleSizes

/-- C8: under a `Grid` detection, extraction equals the spec's row-major
filter-then-cap-then-enumerate: exactly the content-passing cells in row-major
order, at most `maxSprites` of them, with gap-free sequential indices. -/
theorem grid_extraction_spec (cfg : Config) (img : ImageData) (c r s : Nat)
    (hdet : detectSpriteType img (analyzeImage img) = .grid c r s) :
    extractFromImage cfg img = gridTilesSpec cfg img c r s := by
  simp only [extractFromImage]
  rw [hdet]
  show (rowMajorCells r c).foldl (gridStep cfg img s) [] = gridTilesSpec cfg img c r s
  rw [gridFold_eq cfg img s (rowMajorCells r c) [] (Nat.zero_le _)]
  simp only [List.nil_append, Nat.sub_zero, List.length_nil]
  rfl

/-- C8 (witness): the 224×32 sheet detects as a 7×1 grid and its extraction
equals the spec-side grid tiling. -/
theorem grid_extraction_spec_witness :
    detectSpriteType gridSheet224 (analyzeImage gridSheet224) = .grid 7 1 32 ∧
      extractFromImage defaultConfig gridSheet224 = gridTilesSpec defaultConfig gridSheet224 7 1 32 :=
  ⟨detect224_eq, grid_extraction_spec defaultConfig gridSheet224 7 1 32 detect224_eq⟩

/-- C9: segmentation is deterministic: equal pixel buffers yield identical
detection results and identical tile lists. -/
theorem segmentation_deterministic (cfg : Config) (b1 b2 : ImageData) (h : b1 = b2) :
    detectSpriteType b1 (analyzeImage b1) = detectSpriteType b2 (analyzeImage b2) ∧
      extractFromImage cfg b1 = extractFromImage cfg b2 := by
  subst h
  exact ⟨rfl, rfl⟩

/-- C9 (witness): instantiated on the 8×8 blank buffer. -/
theorem segmentation_deterministic_witness :
    blank8 = blank8 ∧
      (detectSpriteType blank8 (analyzeImage blank8) = detectSpriteType blank8 (analyzeImage blank8) ∧
        extractFromImage defaultConfig blank8 = extractFromImage defaultConfig blank8) :=
  ⟨rfl, segmentation_deterministic defaultConfig blank8 blank8 rfl⟩

/-- C10: under a `Regions` detection every emitted tile is a square of side
`max(region.width, region.height)` whose pixels outside the centered
`region.width × region.height` rectangle (offsets `⌊(side-width)/2⌋`,
`⌊(side-height)/2⌋`) are fully transparent, and whose pixels inside it are the
region's source pixels. -/
theorem regions_tiles_centered (cfg : Config) (img : ImageData) (rs : List Region)
    (W H : Nat) (hdet : detectSpriteType img (analyzeImage img) = .regions rs W H) :
    ∀ t ∈ extractFromImage cfg img, ∃ r, r ∈ rs ∧
      t.imageData.width = max r.width r.height ∧
      t.imageData.height = max r.width r.height ∧
      (∀ x y c, x < max r.width r.height → y < max r.width r.height → c < 4 →
        ¬((max r.width r.height - r.width) / 2 ≤ x ∧
            x < (max r.width r.height - r.width) / 2 + r.width ∧
            (max r.width r.height - r.height) / 2 ≤ y ∧
            y < (max r.width r.height - r.height) / 2 + r.height) →
        t.imageData.data ((y * max r.width r.height + x) * 4 + c) = 0) ∧
      (∀ dx dy c, dx < r.width → dy < r.height → c < 4 →
        r.x + dx < img.width → r.y + dy < img.height →
        t.imageData.data
            ((((max r.width r.height - r.height) / 2 + dy) * max r.width r.height +
              ((max r.width r.height - r.width) / 2 + dx)) * 4 + c) =
          img.data (((r.y + dy) * img.width + (r.x + dx)) * 4 + c)) := by
  intro t hmem
  simp only [extractFromImage] at hmem
  rw [hdet] at hmem
  simp only [List.mem_map] at hmem
  obtain ⟨p, hp, ht⟩ := hmem
  refine ⟨p.2, List.snd_mem_of_mem_enum hp, ?_, ?_, ?_, ?_⟩
  · rw [← ht]; rfl
  · rw [← ht]; rfl
  · intro x y c hx hy hc hout
    rw [← ht]
    exact cropCentered_outside img p.2 x y c hx hy hc hout
  · intro dx dy c hdx hdy hc hsx hsy
    rw [← ht]
    exact cropCentered_inside img p.2 dx dy c hdx hdy hc hsx hsy

/-- C10 (witness): instantiated on the two-blob 200×20 sheet, which detects as
two regions. -/
theorem regions_tiles_centered_witness :
    detectSpriteType regionSheet200 (analyzeImage regionSheet200) =
        .regions [⟨8, 0, 24, 20⟩, ⟨98, 0, 24, 20⟩] 200 20 ∧
      ∀ t ∈ extractFromImage defaultConfig regionSheet200,
        ∃ r, r ∈ [(⟨8, 0, 24, 20⟩ : Region), ⟨98, 0, 24, 20⟩] ∧
          t.imageData.width = max r.width r.height ∧
          t.imageData.height = max r.width r.height ∧
          (∀ x y c, x < max r.width r.height → y < max r.width r.height → c < 4 →
            ¬((max r.width r.height - r.width) / 2 ≤ x ∧
                x < (max r.width r.height - r.width) / 2 + r.width ∧
                (max r.width r.height - r.height) / 2 ≤ y ∧
                y < (max r.width r.height - r.height) / 2 + r.height) →
            t.imageData.data ((y * max r.width r.height + x) * 4 + c) = 0) ∧
          (∀ dx dy c, dx < r.width → dy < r.height → c < 4 →
            r.x + dx < regionSheet200.width → r.y + dy < regionSheet200.height →
            t.imageData.data
                ((((max r.width r.height - r.height) / 2 + dy) * max r.width r.height +
                  ((max r.width r.height - r.width) / 2 + dx)) * 4 + c) =
              regionSheet200.data (((r.y + dy) * regionSheet200.width + (r.x + dx)) * 4 + c)) :=
  ⟨detect200_eq,
    regions_tiles_centered defaultConfig regionSheet200 [⟨8, 0, 24, 20⟩, ⟨98, 0, 24, 20⟩]
      200 20 detect200_eq⟩
